import Mathlib

/-!
Shallow embedding of the QuizAgent question store and supply planner:
`src/question_database.py` (SQLite-backed question store) and
`src/QuizAgent.py` (`generate_questions`, the supply/reconciliation layer).

The SQLite table `questions` is modelled as a list of rows in insertion
(`id`) order.  `ORDER BY RANDOM()` is modelled by an explicit reordering
function `σ : List Row → List Row`; theorems that depend on the sample
being a permutation of the matching rows carry the hypothesis
`∀ l, (σ l).Perm l`.  Machine integers are `Int`/`Nat` (the values involved
are tiny, far from any overflow); Python `int(a / 100)` on non-negative
integers is integer floor division.  Timestamps are `Nat` parameters.
-/

/-- A question record as passed around by the application: the dictionary
with keys `question`, `options`, `correct_answer`, `difficulty`. -/
structure Question where
  question : String
  options : List String
  correct_answer : Int
  difficulty : String
deriving DecidableEq, Repr

/-- One row of the `questions` table (`initialize_database`).  The `id`
column is the position in the list (insertion order); `created_at` is not
modelled.  `reported_at` is an optional timestamp set by
`mark_question_invalid`. -/
structure Row where
  grade : Int
  board : String
  topic : String
  difficulty : String
  question : String
  options : List String
  correct_answer : Int
  is_valid : Bool
  reported_at : Option Nat
deriving DecidableEq, Repr

/-- The database: rows of the `questions` table in `id` order. -/
abbrev DB := List Row

/-- The UNIQUE key of the schema: `UNIQUE(grade, board, topic, question)`. -/
def rowKey (r : Row) : Int × String × String × String :=
  (r.grade, r.board, r.topic, r.question)

/-- The CHECK constraints of the schema: `difficulty IN (Easy, Medium, Hard)`
and `correct_answer BETWEEN 0 AND 3`.  (`is_valid` is modelled as `Bool`, so
its CHECK always holds.) -/
def checkOK (r : Row) : Bool :=
  (r.difficulty == "Easy" || r.difficulty == "Medium" || r.difficulty == "Hard")
    && decide (0 ≤ r.correct_answer) && decide (r.correct_answer ≤ 3)

/-- `INSERT OR IGNORE INTO questions ...` (`save_questions`): SQLite applies
the IGNORE conflict resolution to every applicable constraint, so a UNIQUE
duplicate and a CHECK violation alike skip the row silently.  Returns the new
table and whether a row was inserted (`cursor.rowcount > 0`). -/
def insertOrIgnore (db : DB) (r : Row) : DB × Bool :=
  if checkOK r && !(db.any (fun s => decide (rowKey s = rowKey r))) then
    (db ++ [r], true)
  else
    (db, false)

/-- The row built by `save_questions` for one question dictionary (the
`.get` defaults of the Python dict lookups are collapsed: the record always
carries its fields).  New rows are valid and unreported. -/
def rowOfQuestion (grade : Int) (board topic : String) (q : Question) : Row :=
  { grade := grade, board := board, topic := topic, difficulty := q.difficulty,
    question := q.question, options := q.options, correct_answer := q.correct_answer,
    is_valid := true, reported_at := none }

/-- `save_questions(questions, grade, board, topic)`: attempt each insertion;
`rowcount > 0` counts as saved, otherwise as skipped.  (The `except` branch
of the source also counts a raised error as skipped; in this model
`insertOrIgnore` is total, so the `except` path is the skip path as well.)
Returns `((saved_count, skipped_count), new_db)`. -/
def save_questions (questions : List Question) (grade : Int) (board topic : String)
    (db : DB) : (Nat × Nat) × DB :=
  match questions with
  | [] => ((0, 0), db)
  | q :: rest =>
      let step := insertOrIgnore db (rowOfQuestion grade board topic q)
      let next := save_questions rest grade board topic step.1
      (if step.2 then (next.1.1 + 1, next.1.2) else (next.1.1, next.1.2 + 1), next.2)

/-- The WHERE clause of `get_questions` and of `count_questions` with a
difficulty filter: `grade = ? AND board = ? AND topic = ? AND difficulty = ?
AND is_valid = 1`. -/
def matchesValid (grade : Int) (board topic difficulty : String) (r : Row) : Bool :=
  decide (r.grade = grade) && decide (r.board = board) && decide (r.topic = topic)
    && decide (r.difficulty = difficulty) && r.is_valid

/-- The WHERE clause of `count_questions` without a difficulty filter. -/
def matchesValidAnyDiff (grade : Int) (board topic : String) (r : Row) : Bool :=
  decide (r.grade = grade) && decide (r.board = board) && decide (r.topic = topic)
    && r.is_valid

/-- Python truthiness of the `limit` argument in `get_questions`:
`f"LIMIT ..." if limit else ""` — both `None` and `0` omit the LIMIT clause
entirely. -/
def applyLimit (limit : Option Nat) (l : List α) : List α :=
  match limit with
  | none => l
  | some n => if n = 0 then l else l.take n

/-- The SELECT list of `get_questions`: question, options, correct_answer,
difficulty. -/
def questionOfRow (r : Row) : Question :=
  { question := r.question, options := r.options,
    correct_answer := r.correct_answer, difficulty := r.difficulty }

/-- `get_questions(grade, board, topic, difficulty, limit, random)`.
`σ` models `ORDER BY RANDOM()` (an arbitrary reordering of the matching
rows); `random = false` keeps `ORDER BY id`, i.e. list order. -/
def get_questions (σ : List Row → List Row) (db : DB) (grade : Int)
    (board topic difficulty : String) (limit : Option Nat) (random : Bool) :
    List Question :=
  let rows := db.filter (matchesValid grade board topic difficulty)
  let ordered := if random then σ rows else rows
  (applyLimit limit ordered).map questionOfRow

/-- Python truthiness of an optional string argument (`if difficulty:`):
`None` and the empty string are falsy. -/
def strTruthy (s : Option String) : Bool :=
  match s with
  | none => false
  | some s => !s.isEmpty

/-- Python truthiness of an optional integer argument (`if grade:`):
`None` and `0` are falsy. -/
def intTruthy (g : Option Int) : Bool :=
  match g with
  | none => false
  | some g => decide (g ≠ 0)

/-- `count_questions(grade, board, topic, difficulty)`: counts valid rows,
with the difficulty filter applied only when `difficulty` is truthy. -/
def count_questions (db : DB) (grade : Int) (board topic : String)
    (difficulty : Option String) : Nat :=
  if strTruthy difficulty then
    (db.filter (matchesValid grade board topic (difficulty.getD ""))).length
  else
    (db.filter (matchesValidAnyDiff grade board topic)).length

/-- The difficulty-percentage dictionary (`difficulty_distribution` with keys
Easy, Medium, Hard).  The Hard entry is never read by the source. -/
structure Pct where
  easy : Nat
  medium : Nat
  hard : Nat
deriving DecidableEq, Repr

/-- `easy_count = int(num_questions * difficulty_distribution["Easy"] / 100)`. -/
def easyCount (num_questions : Nat) (dist : Pct) : Nat :=
  num_questions * dist.easy / 100

/-- `medium_count = int(num_questions * difficulty_distribution["Medium"] / 100)`. -/
def mediumCount (num_questions : Nat) (dist : Pct) : Nat :=
  num_questions * dist.medium / 100

/-- `hard_count = num_questions - easy_count - medium_count`, over ℤ as in
Python (it may be negative when the percentages do not sum to 100). -/
def hardCount (num_questions : Nat) (dist : Pct) : Int :=
  (num_questions : Int) - easyCount num_questions dist - mediumCount num_questions dist

/-- The `missing_counts` dictionary with keys Easy, Medium, Hard. -/
structure Missing where
  easy : Nat
  medium : Nat
  hard : Nat
deriving DecidableEq, Repr

/-- Total of the `missing_counts` dictionary (`sum(missing_counts.values())`). -/
def Missing.total (m : Missing) : Nat := m.easy + m.medium + m.hard

/-- Look a difficulty up in a `missing_counts` dictionary. -/
def Missing.get (m : Missing) (d : String) : Nat :=
  if d = "Easy" then m.easy else if d = "Medium" then m.medium else m.hard

/-- The per-difficulty target of the planner, as an integer: the Easy and
Medium floors, and the Hard remainder. -/
def targetFor (num_questions : Nat) (dist : Pct) (d : String) : Int :=
  if d = "Easy" then (easyCount num_questions dist : Int)
  else if d = "Medium" then (mediumCount num_questions dist : Int)
  else hardCount num_questions dist

/-- One iteration of the difficulty loop of
`get_partial_questions_and_missing_counts`: when the target `count` is
positive, fetch `count` questions if that many are available, otherwise
fetch all `available` ones and record `count - available` as missing. -/
def fetch_bucket (σ : List Row → List Row) (db : DB) (grade : Int)
    (board topic difficulty : String) (count : Int) : List Question × Nat :=
  if 0 < count then
    let avail := count_questions db grade board topic (some difficulty)
    if count ≤ (avail : Int) then
      (get_questions σ db grade board topic difficulty (some count.toNat) true, 0)
    else
      (get_questions σ db grade board topic difficulty (some avail) true,
       (count - avail).toNat)
  else ([], 0)

/-- `get_partial_questions_and_missing_counts(grade, board, topic,
difficulty_distribution, num_questions)`: the Easy, Medium, Hard buckets in
loop order, concatenated, with the per-difficulty missing counts. -/
def get_partial_questions_and_missing_counts (σ : List Row → List Row) (db : DB)
    (grade : Int) (board topic : String) (dist : Pct) (num_questions : Nat) :
    List Question × Missing :=
  let be := fetch_bucket σ db grade board topic "Easy" (easyCount num_questions dist : Int)
  let bm := fetch_bucket σ db grade board topic "Medium" (mediumCount num_questions dist : Int)
  let bh := fetch_bucket σ db grade board topic "Hard" (hardCount num_questions dist)
  (be.1 ++ bm.1 ++ bh.1, { easy := be.2, medium := bm.2, hard := bh.2 })

/-- ASCII lowering of one character, modelling Python `str.lower` on the
ASCII texts this application handles. -/
def lowerChar (c : Char) : Char := c.toLower

/-- Python `s.lower()`. -/
def pyLower (s : String) : String := String.mk (s.data.map lowerChar)

/-- Python `s.strip()`: drop leading and trailing whitespace. -/
def pyStrip (s : String) : String :=
  String.mk (((s.data.dropWhile Char.isWhitespace).reverse.dropWhile Char.isWhitespace).reverse)

/-- The normalisation `q.lower().strip()` used for the seen-set. -/
def normText (s : String) : String := pyStrip (pyLower s)

/-- `previous_questions_set = set(q.lower().strip() for q in previous_questions)`,
modelled as the list of normalised texts (membership agrees with the set). -/
def previous_questions_set (previous_questions : List String) : List String :=
  previous_questions.map normText

/-- `filter_user_questions` (nested helper of `generate_questions`): when the
seen-set is empty the list passes through; otherwise every question whose
normalised text is in the seen-set is removed. -/
def filter_user_questions (previous_questions : List String)
    (questions_list : List Question) : List Question :=
  let s := previous_questions_set previous_questions
  if s.isEmpty then questions_list
  else questions_list.filter (fun q => !(s.contains (normText q.question)))

/-- `multiplier = 2 if previous_questions_set else 1`. -/
def multiplier (previous_questions : List String) : Nat :=
  if (previous_questions_set previous_questions).isEmpty then 1 else 2

/-- The store-sourced set of `generate_questions` after seen-filtering:
`filter_user_questions` applied to the first component of
`get_partial_questions_and_missing_counts(..., num_questions * multiplier)`. -/
def plan_filtered (σ : List Row → List Row) (db : DB) (grade : Int)
    (board topic : String) (dist : Pct) (num_questions : Nat)
    (previous_questions : List String) : List Question :=
  filter_user_questions previous_questions
    (get_partial_questions_and_missing_counts σ db grade board topic dist
      (num_questions * multiplier previous_questions)).1

/-- `filtered_by_difficulty`: how many questions of the filtered set carry
difficulty `d` (the source counts only the keys Easy, Medium, Hard). -/
def count_by_difficulty (qs : List Question) (d : String) : Nat :=
  (qs.filter (fun q => q.difficulty == d)).length

/-- The recomputed `missing_counts` of `generate_questions`:
`max(0, target - obtained)` per difficulty, against the plain
(`num_questions`, not multiplied) targets. -/
def missing_after_filter (num_questions : Nat) (dist : Pct) (qs : List Question) :
    Missing :=
  { easy := easyCount num_questions dist - count_by_difficulty qs "Easy",
    medium := mediumCount num_questions dist - count_by_difficulty qs "Medium",
    hard := (hardCount num_questions dist - (count_by_difficulty qs "Hard" : Int)).toNat }

/-- `difficulty_order = dict with Easy 0, Medium 1, Hard 2, default 0`. -/
def difficulty_order (d : String) : Nat :=
  if d = "Easy" then 0 else if d = "Medium" then 1 else if d = "Hard" then 2 else 0

/-- The stable sort `all_questions.sort(key = difficulty_order)`. -/
def sort_by_difficulty (qs : List Question) : List Question :=
  qs.mergeSort (fun a b => decide (difficulty_order a.difficulty ≤ difficulty_order b.difficulty))

/-- `generate_questions(grade, board, topic, num_questions,
difficulty_distribution, user_name, previous_questions)`.

`api_key` models the presence of `GOOGLE_API_KEY`; `backend` models the
generation call together with response-text extraction and JSON parsing:
`none` means the call raised or its output did not parse (both `except`
branches return the empty list, leaving the store untouched), `some qs` the
parsed list with `correct_answer` already coerced to an integer.  Returns
the question list handed to the caller together with the database after any
saves. -/
def generate_questions (σ : List Row → List Row) (api_key : Bool)
    (backend : Option (List Question)) (db : DB) (grade : Int)
    (board topic : String) (num_questions : Nat) (dist : Pct)
    (previous_questions : List String) : List Question × DB :=
  let pq := plan_filtered σ db grade board topic dist num_questions previous_questions
  let missing := missing_after_filter num_questions dist pq
  let total_missing := missing.total
  if total_missing = 0 ∧ num_questions ≤ pq.length then (pq.take num_questions, db)
  else if !api_key then (pq, db)
  else if total_missing = 0 then (pq.take num_questions, db)
  else
    match backend with
    | none => ([], db)
    | some resp =>
        let generated := resp.take total_missing
        let db2 := if generated.isEmpty then db
                   else (save_questions generated grade board topic db).2
        ((sort_by_difficulty (pq ++ generated)).take num_questions, db2)

/-- The WHERE clause of `mark_question_invalid`:
`grade = ? AND board = ? AND topic = ? AND question = ?`. -/
def keyMatch (grade : Int) (board topic question_text : String) (r : Row) : Bool :=
  decide (r.grade = grade) && decide (r.board = board) && decide (r.topic = topic)
    && decide (r.question = question_text)

/-- The row update of `mark_question_invalid` applied to one row: flip
currently-valid exact matches to invalid and stamp `reported_at`. -/
def invalidateRow (now : Nat) (grade : Int) (board topic question_text : String)
    (r : Row) : Row :=
  if keyMatch grade board topic question_text r && r.is_valid then
    { r with is_valid := false, reported_at := some now }
  else r

/-- `mark_question_invalid(grade, board, topic, question_text)`: the UPDATE
touches every currently-valid exact match; the returned Bool is
`cursor.rowcount > 0`.  `now` models `CURRENT_TIMESTAMP`. -/
def mark_question_invalid (now : Nat) (db : DB) (grade : Int)
    (board topic question_text : String) : Bool × DB :=
  (db.any (fun r => keyMatch grade board topic question_text r && r.is_valid),
   db.map (invalidateRow now grade board topic question_text))

/-- The WHERE clause of `get_invalid_questions_report`: `is_valid = 0` plus
each optional filter when truthy. -/
def invalid_filter (grade : Option Int) (board topic : Option String) (r : Row) : Bool :=
  !r.is_valid
    && (!intTruthy grade || decide (r.grade = grade.getD 0))
    && (!strTruthy board || decide (r.board = board.getD ""))
    && (!strTruthy topic || decide (r.topic = topic.getD ""))

/-- `ORDER BY reported_at DESC` (SQLite sorts NULL after every value in a
descending order). -/
def reportedDesc (a b : Row) : Bool :=
  match a.reported_at, b.reported_at with
  | some x, some y => decide (y ≤ x)
  | some _, none => true
  | none, some _ => false
  | none, none => true

/-- `get_invalid_questions_report(grade, board, topic)` (the selected columns
cover the whole row, so the report is modelled as the rows themselves). -/
def get_invalid_questions_report (db : DB) (grade : Option Int)
    (board topic : Option String) : List Row :=
  (db.filter (invalid_filter grade board topic)).mergeSort reportedDesc

/-- The `total_missing` value computed inside `generate_questions`. -/
def total_missing_of (σ : List Row → List Row) (db : DB) (grade : Int)
    (board topic : String) (dist : Pct) (num_questions : Nat)
    (previous_questions : List String) : Nat :=
  (missing_after_filter num_questions dist
    (plan_filtered σ db grade board topic dist num_questions previous_questions)).total

/-- Whether the store holds a row with the given UNIQUE key. -/
def hasKey (db : DB) (k : Int × String × String × String) : Bool :=
  db.any (fun s => decide (rowKey s = k))

/-- A valid stored row at the fixed request key used by the concrete
examples: grade 6, board B, topic T. -/
def mkRow (d q : String) : Row :=
  { grade := 6, board := "B", topic := "T", difficulty := d, question := q,
    options := ["a", "b", "c", "d"], correct_answer := 0,
    is_valid := true, reported_at := none }

/-- A question dictionary at the same fixed request key. -/
def mkQ (d q : String) : Question :=
  { question := q, options := ["a", "b", "c", "d"], correct_answer := 0, difficulty := d }

/-- A store with 5 valid Easy and 3 valid Medium questions (and no Hard). -/
def sampleDb : DB :=
  [mkRow "Easy" "e1", mkRow "Easy" "e2", mkRow "Easy" "e3", mkRow "Easy" "e4",
   mkRow "Easy" "e5", mkRow "Medium" "m1", mkRow "Medium" "m2", mkRow "Medium" "m3"]

/-- The percentage mix Easy 50, Medium 30, Hard 20. -/
def mixDist : Pct := { easy := 50, medium := 30, hard := 20 }

/-- The percentage mix Easy 50, Medium 50, Hard 0. -/
def halfDist : Pct := { easy := 50, medium := 50, hard := 0 }

/-- The percentage mix Easy 0, Medium 0, Hard 100. -/
def hardDist : Pct := { easy := 0, medium := 0, hard := 100 }

/-- A question violating the CHECK constraint on `correct_answer`. -/
def qbad : Question :=
  { question := "bad", options := ["a", "b", "c", "d"], correct_answer := 5,
    difficulty := "Easy" }

/-- A batch of 7 distinct Hard questions, as a generation backend response. -/
def genBatch7 : List Question :=
  [mkQ "Hard" "g1", mkQ "Hard" "g2", mkQ "Hard" "g3", mkQ "Hard" "g4",
   mkQ "Hard" "g5", mkQ "Hard" "g6", mkQ "Hard" "g7"]

/-- A seen-set entry differing from a stored text only by case and spacing. -/
def prevW : List String := ["  WHAT IS 2+2? "]

/-- A question the user has effectively seen (modulo case and spacing). -/
def qSeen : Question := mkQ "Easy" "What is 2+2?"

/-- A question the user has not seen. -/
def qNew : Question := mkQ "Easy" "Other"

/-- A sampled list holding one seen and one unseen question. -/
def qsW : List Question := [qSeen, qNew]

/-- C2: the three targets sum to the total. -/
theorem difficulty_sum_invariant (num_questions : Nat) (dist : Pct) :
    (easyCount num_questions dist : Int) + (mediumCount num_questions dist : Int)
      + hardCount num_questions dist = (num_questions : Int) := by
  unfold hardCount
  ring

/-- C10: at `get_questions`, a limit of 0 is falsy, omits the LIMIT clause,
and returns every valid matching question — identically to passing no limit
at all. -/
theorem get_questions_limit_zero (σ : List Row → List Row) (db : DB) (grade : Int)
    (board topic difficulty : String) (random : Bool) :
    get_questions σ db grade board topic difficulty (some 0) random
      = get_questions σ db grade board topic difficulty none random
    ∧ get_questions σ db grade board topic difficulty (some 0) random
      = ((if random then σ (db.filter (matchesValid grade board topic difficulty))
          else db.filter (matchesValid grade board topic difficulty)).map questionOfRow) :=
  ⟨rfl, rfl⟩

theorem insertOrIgnore_keys_nodup (db : DB) (r : Row)
    (h : (db.map rowKey).Nodup) : ((insertOrIgnore db r).1.map rowKey).Nodup := by
  unfold insertOrIgnore
  split
  · next hcond =>
    have hany : db.any (fun s => decide (rowKey s = rowKey r)) = false := by
      rcases Bool.and_eq_true .. |>.mp hcond with ⟨-, hne⟩
      simpa using hne
    simp only [List.map_append, List.map_cons, List.map_nil]
    rw [List.nodup_append]
    refine ⟨h, List.nodup_singleton _, ?_⟩
    intro k hk hk2
    simp only [List.mem_singleton] at hk2
    subst hk2
    rcases List.mem_map.mp hk with ⟨s, hs, hks⟩
    have := List.any_eq_false.mp hany s hs
    simp [hks] at this
  · exact h

theorem save_questions_keys_nodup (qs : List Question) (grade : Int)
    (board topic : String) (db : DB) (h : (db.map rowKey).Nodup) :
    ((save_questions qs grade board topic db).2.map rowKey).Nodup := by
  induction qs generalizing db with
  | nil => exact h
  | cons q rest ih =>
      show ((save_questions rest grade board topic
        (insertOrIgnore db (rowOfQuestion grade board topic q)).1).2.map rowKey).Nodup
      exact ih _ (insertOrIgnore_keys_nodup _ _ h)

/-- C3: inserting the same (grade, board, topic, question-text) twice leaves
exactly one stored row — the first attempt is saved, the second is counted
as skipped with the store unchanged and no error — and `save_questions`
preserves the key-uniqueness invariant of the table. -/
theorem insert_twice_unique (grade : Int) (board topic : String) (q : Question)
    (db : DB) (hok : checkOK (rowOfQuestion grade board topic q) = true)
    (habs : db.any (fun s => decide (rowKey s = rowKey (rowOfQuestion grade board topic q)))
      = false) :
    save_questions [q] grade board topic db
      = ((1, 0), db ++ [rowOfQuestion grade board topic q])
    ∧ save_questions [q] grade board topic (db ++ [rowOfQuestion grade board topic q])
      = ((0, 1), db ++ [rowOfQuestion grade board topic q])
    ∧ ∀ (qs : List Question) (db0 : DB), (db0.map rowKey).Nodup →
        ((save_questions qs grade board topic db0).2.map rowKey).Nodup := by
  refine ⟨?_, ?_, fun qs db0 h => save_questions_keys_nodup qs grade board topic db0 h⟩
  · simp [save_questions, insertOrIgnore, hok, habs]
  · have hdup : (db ++ [rowOfQuestion grade board topic q]).any
        (fun s => decide (rowKey s = rowKey (rowOfQuestion grade board topic q))) = true := by
      simp
    simp [save_questions, insertOrIgnore, hdup]

/-- C3 witness: a concrete double insertion into the empty store. -/
theorem insert_twice_unique_witness :
    save_questions [mkQ "Easy" "e1"] 6 "B" "T" []
      = ((1, 0), [rowOfQuestion 6 "B" "T" (mkQ "Easy" "e1")])
    ∧ save_questions [mkQ "Easy" "e1"] 6 "B" "T" [rowOfQuestion 6 "B" "T" (mkQ "Easy" "e1")]
      = ((0, 1), [rowOfQuestion 6 "B" "T" (mkQ "Easy" "e1")])
    ∧ ∀ (qs : List Question) (db0 : DB), (db0.map rowKey).Nodup →
        ((save_questions qs 6 "B" "T" db0).2.map rowKey).Nodup := by
  have h := insert_twice_unique 6 "B" "T" (mkQ "Easy" "e1") [] (by decide) (by decide)
  simpa using h

/-- C8 counterexample: a CHECK-violating insertion (correct-answer index 5)
into an empty store — no duplicate exists, yet the attempt is silently
counted as skipped (never surfaced as a distinct fatal error). -/
theorem check_violation_not_fatal_cex :
    ¬ (∀ (db : DB) (grade : Int) (board topic : String) (q : Question),
        db.any (fun s => decide (rowKey s = rowKey (rowOfQuestion grade board topic q)))
          = false →
        (save_questions [q] grade board topic db).1.2 = 0) := by
  intro h
  have := h [] 6 "B" "T" qbad (by decide)
  revert this
  decide

/-- C8 amended: during batch insertion every conflict — an exact uniqueness
duplicate and a CHECK violation alike — is silently counted as skipped and
leaves the store unchanged; `INSERT OR IGNORE` plus the catch-all `except`
surface no insertion conflict as a fatal error. -/
theorem constraint_violation_skipped (grade : Int) (board topic : String)
    (q : Question) (db : DB)
    (h : checkOK (rowOfQuestion grade board topic q) = false
       ∨ db.any (fun s => decide (rowKey s = rowKey (rowOfQuestion grade board topic q)))
          = true) :
    save_questions [q] grade board topic db = ((0, 1), db) := by
  rcases h with h | h <;> simp [save_questions, insertOrIgnore, h]

/-- C8 witness: the CHECK-violating question is skipped, not fatal. -/
theorem constraint_violation_skipped_witness :
    (checkOK (rowOfQuestion 6 "B" "T" qbad) = false
      ∨ ([] : DB).any (fun s => decide (rowKey s = rowKey (rowOfQuestion 6 "B" "T" qbad)))
          = true)
    ∧ save_questions [qbad] 6 "B" "T" [] = ((0, 1), []) :=
  ⟨Or.inl (by decide), constraint_violation_skipped 6 "B" "T" qbad [] (Or.inl (by decide))⟩

/-- C4: a sampled question whose normalised (lowercased, trimmed) text is in
the seen-set never appears in the filtered usable set, and every sampled
question whose normalised text is not in the seen-set passes the filter. -/
theorem seen_filtering (previous_questions : List String) (qs : List Question)
    (q : Question) :
    ((∃ t ∈ previous_questions, normText t = normText q.question) →
      q ∉ filter_user_questions previous_questions qs)
    ∧ (q ∈ qs → normText q.question ∉ previous_questions_set previous_questions →
      q ∈ filter_user_questions previous_questions qs) := by
  constructor
  · rintro ⟨t, ht, heq⟩ hmem
    have hs : normText q.question ∈ previous_questions_set previous_questions :=
      heq ▸ List.mem_map_of_mem normText ht
    simp only [filter_user_questions] at hmem
    split at hmem
    · next hemp =>
        rw [List.isEmpty_iff.mp hemp] at hs
        exact absurd hs (List.not_mem_nil _)
    · rcases List.mem_filter.mp hmem with ⟨-, hpred⟩
      rw [Bool.not_eq_true'] at hpred
      have : normText q.question ∉ previous_questions_set previous_questions := by
        simpa using hpred
      exact this hs
  · intro hmem hnot
    simp only [filter_user_questions]
    split
    · exact hmem
    · refine List.mem_filter.mpr ⟨hmem, ?_⟩
      have : (previous_questions_set previous_questions).contains
          (normText q.question) = false := by
        simpa using hnot
      rw [this]
      rfl

/-- C4 witness: the seen-set entry differs only by case and spacing from the
stored text; the seen question is removed, the unseen one passes. -/
theorem seen_filtering_witness :
    qSeen ∉ filter_user_questions prevW qsW ∧ qNew ∈ filter_user_questions prevW qsW :=
  ⟨(seen_filtering prevW qsW qSeen).1 ⟨"  WHAT IS 2+2? ", by decide, by decide⟩,
   (seen_filtering prevW qsW qNew).2 (by decide) (by decide)⟩

theorem invalidateRow_not_valid_match (now : Nat) (grade : Int)
    (board topic qt : String) (s : Row) :
    (keyMatch grade board topic qt (invalidateRow now grade board topic qt s)
      && (invalidateRow now grade board topic qt s).is_valid) = false := by
  unfold invalidateRow
  split
  · simp [keyMatch]
  · next h => exact Bool.eq_false_iff.mpr h

theorem invalidateRow_idem (now now2 : Nat) (grade : Int) (board topic qt : String)
    (s : Row) :
    invalidateRow now2 grade board topic qt (invalidateRow now grade board topic qt s)
      = invalidateRow now grade board topic qt s := by
  by_cases hq : (keyMatch grade board topic qt s && s.is_valid) = true
  · have h1 : invalidateRow now grade board topic qt s
        = { s with is_valid := false, reported_at := some now } := by
      simp [invalidateRow, hq]
    rw [h1]
    simp [invalidateRow]
  · have hs : invalidateRow now grade board topic qt s = s := by
      simp only [invalidateRow, hq]
      rfl
    rw [hs]
    simp only [invalidateRow, hq]
    rfl

theorem countP_invalidate (now : Nat) (grade : Int) (board topic qt : String)
    (db : DB) :
    (db.map (invalidateRow now grade board topic qt)).countP
        (matchesValidAnyDiff grade board topic)
      + db.countP (fun s => keyMatch grade board topic qt s && s.is_valid)
      = db.countP (matchesValidAnyDiff grade board topic) := by
  induction db with
  | nil => rfl
  | cons s rest ih =>
      simp only [List.countP_map] at ih
      by_cases hq : (keyMatch grade board topic qt s && s.is_valid) = true
      · have hq2 := hq
        simp only [keyMatch, Bool.and_eq_true, decide_eq_true_eq] at hq2
        obtain ⟨⟨⟨⟨hg, hb⟩, ht2⟩, -⟩, hv⟩ := hq2
        have hp : matchesValidAnyDiff grade board topic s = true := by
          simp [matchesValidAnyDiff, hg, hb, ht2, hv]
        have hpf : matchesValidAnyDiff grade board topic
            (invalidateRow now grade board topic qt s) = false := by
          simp [invalidateRow, hq, matchesValidAnyDiff]
        simp [List.countP_cons, hq, hp, hpf]
        omega
      · have hfs : invalidateRow now grade board topic qt s = s := by
          simp only [invalidateRow, hq]
          rfl
        simp [List.countP_cons, hq, hfs]
        omega

/-- C5: invalidating a stored, currently-valid question (the only valid row
carrying its key) returns true and flips it; a second invalidation returns
false and changes nothing; after the first call the plain count excludes the
question while the invalid-questions report includes it. -/
theorem invalidate_idempotent (now now2 : Nat) (db : DB) (r : Row)
    (hmem : r ∈ db) (hvalid : r.is_valid = true)
    (hone : db.countP
      (fun s => keyMatch r.grade r.board r.topic r.question s && s.is_valid) = 1) :
    (mark_question_invalid now db r.grade r.board r.topic r.question).1 = true
    ∧ mark_question_invalid now2
        (mark_question_invalid now db r.grade r.board r.topic r.question).2
        r.grade r.board r.topic r.question
      = (false, (mark_question_invalid now db r.grade r.board r.topic r.question).2)
    ∧ count_questions
        (mark_question_invalid now db r.grade r.board r.topic r.question).2
        r.grade r.board r.topic none + 1
      = count_questions db r.grade r.board r.topic none
    ∧ { r with is_valid := false, reported_at := some now } ∈
        get_invalid_questions_report
          (mark_question_invalid now db r.grade r.board r.topic r.question).2
          (some r.grade) (some r.board) (some r.topic) := by
  have hself : (keyMatch r.grade r.board r.topic r.question r && r.is_valid) = true := by
    simp [keyMatch, hvalid]
  refine ⟨?_, ?_, ?_, ?_⟩
  · exact List.any_eq_true.mpr ⟨r, hmem, hself⟩
  · unfold mark_question_invalid
    refine Prod.ext ?_ ?_
    · simp only []
      rw [List.any_eq_false]
      intro x hx
      rcases List.mem_map.mp hx with ⟨s, -, rfl⟩
      simp [invalidateRow_not_valid_match]
    · simp only [List.map_map]
      exact List.map_congr_left fun s _ => invalidateRow_idem now now2 _ _ _ _ s
  · have hcount := countP_invalidate now r.grade r.board r.topic r.question db
    rw [hone] at hcount
    simpa [mark_question_invalid, count_questions, strTruthy,
      ← List.countP_eq_length_filter] using hcount
  · have hfr : invalidateRow now r.grade r.board r.topic r.question r
        = { r with is_valid := false, reported_at := some now } := by
      simp [invalidateRow, hself]
    have hmem2 : { r with is_valid := false, reported_at := some now }
        ∈ (mark_question_invalid now db r.grade r.board r.topic r.question).2 := by
      unfold mark_question_invalid
      exact hfr ▸ List.mem_map_of_mem _ hmem
    have hfilter : invalid_filter (some r.grade) (some r.board) (some r.topic)
        { r with is_valid := false, reported_at := some now } = true := by
      simp [invalid_filter]
    unfold get_invalid_questions_report
    exact (List.mergeSort_perm _ _).mem_iff.mpr (List.mem_filter.mpr ⟨hmem2, hfilter⟩)

/-- C5 witness: a one-row store holding a valid question. -/
theorem invalidate_idempotent_witness :
    (mkRow "Easy" "e1" ∈ ([mkRow "Easy" "e1"] : DB)
      ∧ (mkRow "Easy" "e1").is_valid = true
      ∧ ([mkRow "Easy" "e1"] : DB).countP
          (fun s => keyMatch 6 "B" "T" "e1" s && s.is_valid) = 1)
    ∧ ((mark_question_invalid 0 [mkRow "Easy" "e1"] 6 "B" "T" "e1").1 = true
      ∧ mark_question_invalid 1
          (mark_question_invalid 0 [mkRow "Easy" "e1"] 6 "B" "T" "e1").2 6 "B" "T" "e1"
        = (false, (mark_question_invalid 0 [mkRow "Easy" "e1"] 6 "B" "T" "e1").2)
      ∧ count_questions (mark_question_invalid 0 [mkRow "Easy" "e1"] 6 "B" "T" "e1").2
          6 "B" "T" none + 1
        = count_questions [mkRow "Easy" "e1"] 6 "B" "T" none
      ∧ { mkRow "Easy" "e1" with is_valid := false, reported_at := some 0 } ∈
          get_invalid_questions_report
            (mark_question_invalid 0 [mkRow "Easy" "e1"] 6 "B" "T" "e1").2
            (some 6) (some "B") (some "T")) :=
  ⟨⟨by decide, by decide, by decide⟩,
   invalidate_idempotent 0 1 [mkRow "Easy" "e1"] (mkRow "Easy" "e1")
     (by decide) (by decide) (by decide)⟩

/-- C6 counterexample: the store-sourced set is non-empty (one Easy question
for a request of 2 at Easy 50 / Medium 50), the backend call fails, and the
caller receives the empty list — not the non-empty partial set the claim
promises. -/
theorem generation_failure_cex :
    plan_filtered id [mkRow "Easy" "e1"] 6 "B" "T" halfDist 2 [] ≠ []
    ∧ (generate_questions id true none [mkRow "Easy" "e1"] 6 "B" "T" 2 halfDist []).1
        = [] :=
  ⟨by decide, by decide⟩

/-- C6 amended: when generation is needed, a backend call that fails or
returns non-parseable content yields the empty list to the caller (and
leaves the store untouched) even when the store-sourced partial set is
non-empty; only the missing-credentials path (no API key configured) falls
back to returning the partial store-sourced set. -/
theorem generation_failure_empty_result (σ : List Row → List Row) (db : DB)
    (grade : Int) (board topic : String) (num_questions : Nat) (dist : Pct)
    (previous_questions : List String)
    (hm : total_missing_of σ db grade board topic dist num_questions
      previous_questions ≠ 0) :
    generate_questions σ true none db grade board topic num_questions dist
        previous_questions = ([], db)
    ∧ ∀ backend, generate_questions σ false backend db grade board topic
        num_questions dist previous_questions
      = (plan_filtered σ db grade board topic dist num_questions previous_questions,
         db) := by
  rw [total_missing_of] at hm
  constructor
  · simp [generate_questions, hm]
  · intro backend
    simp [generate_questions, hm]

/-- C6 witness: the counterexample store, both for the failing-backend path
and for the missing-credentials path. -/
theorem generation_failure_empty_result_witness :
    total_missing_of id [mkRow "Easy" "e1"] 6 "B" "T" halfDist 2 [] ≠ 0
    ∧ generate_questions id true none [mkRow "Easy" "e1"] 6 "B" "T" 2 halfDist []
        = ([], [mkRow "Easy" "e1"])
    ∧ generate_questions id false none [mkRow "Easy" "e1"] 6 "B" "T" 2 halfDist []
        = (plan_filtered id [mkRow "Easy" "e1"] 6 "B" "T" halfDist 2 [],
           [mkRow "Easy" "e1"]) :=
  ⟨by decide,
   (generation_failure_empty_result id [mkRow "Easy" "e1"] 6 "B" "T" 2 halfDist []
     (by decide)).1,
   (generation_failure_empty_result id [mkRow "Easy" "e1"] 6 "B" "T" 2 halfDist []
     (by decide)).2 none⟩

theorem generate_questions_some_eq (σ : List Row → List Row) (db : DB) (grade : Int)
    (board topic : String) (num_questions : Nat) (dist : Pct)
    (previous_questions : List String) (resp : List Question)
    (hm : total_missing_of σ db grade board topic dist num_questions
      previous_questions ≠ 0) :
    generate_questions σ true (some resp) db grade board topic num_questions dist
        previous_questions
      = ((sort_by_difficulty
            (plan_filtered σ db grade board topic dist num_questions previous_questions
              ++ resp.take (total_missing_of σ db grade board topic dist num_questions
                  previous_questions))).take num_questions,
         (save_questions
            (resp.take (total_missing_of σ db grade board topic dist num_questions
              previous_questions)) grade board topic db).2) := by
  simp only [total_missing_of] at hm ⊢
  have hdb : ∀ gen : List Question,
      (if gen.isEmpty then db else (save_questions gen grade board topic db).2)
        = (save_questions gen grade board topic db).2 := by
    intro gen
    cases gen <;> rfl
  simp [generate_questions, hm, hdb]
  rintro rfl
  simp [save_questions]

theorem save_questions_hasKey_false (grade : Int) (board topic : String)
    (qs : List Question) (db : DB) (k : Int × String × String × String)
    (h0 : hasKey db k = false)
    (hq : ∀ p ∈ qs, (grade, board, topic, p.question) ≠ k) :
    hasKey (save_questions qs grade board topic db).2 k = false := by
  induction qs generalizing db with
  | nil => exact h0
  | cons q rest ih =>
      have hstep : hasKey (insertOrIgnore db (rowOfQuestion grade board topic q)).1 k
          = false := by
        unfold insertOrIgnore
        split
        · rw [hasKey] at h0 ⊢
          rw [List.any_append, h0]
          simp only [List.any_cons, List.any_nil, Bool.false_or, Bool.or_false,
            decide_eq_false_iff_not, rowKey, rowOfQuestion]
          exact hq q (List.mem_cons_self ..)
        · exact h0
      show hasKey (save_questions rest grade board topic
        (insertOrIgnore db (rowOfQuestion grade board topic q)).1).2 k = false
      exact ih _ hstep (fun p hp => hq p (List.mem_cons_of_mem _ hp))

/-- C7 counterexample: the backend returns 7 questions for a shortfall of 5;
record g6 of the response is well-formed and absent from the (empty) store,
yet the final store holds 5 rows and no row keyed on g6 — the extra records
were never attempted for insertion, only the truncated subset was. -/
theorem persist_full_batch_cex :
    mkQ "Hard" "g6" ∈ genBatch7
    ∧ checkOK (rowOfQuestion 6 "B" "T" (mkQ "Hard" "g6")) = true
    ∧ hasKey ([] : DB) (6, "B", "T", "g6") = false
    ∧ (generate_questions id true (some genBatch7) [] 6 "B" "T" 5 hardDist []).2.length
        = 5
    ∧ hasKey (generate_questions id true (some genBatch7) [] 6 "B" "T" 5 hardDist []).2
        (6, "B", "T", "g6") = false := by
  refine ⟨by decide, by decide, by decide, by decide, by decide⟩

/-- C7 amended: the gateway truncates the backend response to the requested
shortfall first and persists only that truncated subset via insert-if-absent
(before merging and returning the first requested-count records); response
records beyond the shortfall are discarded without any insertion attempt. -/
theorem persist_truncated (σ : List Row → List Row) (db : DB) (grade : Int)
    (board topic : String) (num_questions : Nat) (dist : Pct)
    (previous_questions : List String) (resp : List Question)
    (hm : total_missing_of σ db grade board topic dist num_questions
      previous_questions ≠ 0) :
    generate_questions σ true (some resp) db grade board topic num_questions dist
        previous_questions
      = ((sort_by_difficulty
            (plan_filtered σ db grade board topic dist num_questions previous_questions
              ++ resp.take (total_missing_of σ db grade board topic dist num_questions
                  previous_questions))).take num_questions,
         (save_questions
            (resp.take (total_missing_of σ db grade board topic dist num_questions
              previous_questions)) grade board topic db).2)
    ∧ ∀ q ∈ resp.drop (total_missing_of σ db grade board topic dist num_questions
        previous_questions),
        hasKey db (grade, board, topic, q.question) = false →
        (∀ p ∈ resp.take (total_missing_of σ db grade board topic dist num_questions
          previous_questions), p.question ≠ q.question) →
        hasKey (generate_questions σ true (some resp) db grade board topic
            num_questions dist previous_questions).2
          (grade, board, topic, q.question) = false := by
  have heq := generate_questions_some_eq σ db grade board topic num_questions dist
    previous_questions resp hm
  refine ⟨heq, ?_⟩
  intro q hqd h0 hne
  rw [heq]
  exact save_questions_hasKey_false grade board topic _ db _ h0
    (fun p hp h => hne p hp (by simpa using h))

/-- C7 witness: the 7-record response against the empty store; the final
store is the save of the 5-record truncation, and g7 is never stored. -/
theorem persist_truncated_witness :
    total_missing_of id [] 6 "B" "T" hardDist 5 [] ≠ 0
    ∧ (generate_questions id true (some genBatch7) [] 6 "B" "T" 5 hardDist []).2
        = (save_questions (genBatch7.take (total_missing_of id [] 6 "B" "T" hardDist 5 []))
            6 "B" "T" []).2
    ∧ hasKey (generate_questions id true (some genBatch7) [] 6 "B" "T" 5 hardDist []).2
        (6, "B", "T", (mkQ "Hard" "g7").question) = false :=
  ⟨by decide,
   congrArg Prod.snd
     (persist_truncated id [] 6 "B" "T" 5 hardDist [] genBatch7 (by decide)).1,
   (persist_truncated id [] 6 "B" "T" 5 hardDist [] genBatch7 (by decide)).2
     (mkQ "Hard" "g7") (by decide) (by decide) (by decide)⟩

theorem counts_le_length (qs : List Question) :
    count_by_difficulty qs "Easy" + count_by_difficulty qs "Medium"
      + count_by_difficulty qs "Hard" ≤ qs.length := by
  induction qs with
  | nil => simp [count_by_difficulty]
  | cons q rest ih =>
      simp only [count_by_difficulty, ← List.countP_eq_length_filter,
        List.countP_cons, List.length_cons] at ih ⊢
      cases e1 : (q.difficulty == "Easy") <;> cases e2 : (q.difficulty == "Medium") <;>
        cases e3 : (q.difficulty == "Hard") <;> simp [e1, e2, e3] <;>
        first
          | omega
          | exact absurd ((eq_of_beq e1).symm.trans (eq_of_beq e2)) (by decide)
          | exact absurd ((eq_of_beq e1).symm.trans (eq_of_beq e3)) (by decide)
          | exact absurd ((eq_of_beq e2).symm.trans (eq_of_beq e3)) (by decide)

theorem targets_total_ge (num_questions : Nat) (dist : Pct) :
    num_questions ≤ easyCount num_questions dist + mediumCount num_questions dist
      + (hardCount num_questions dist).toNat := by
  unfold hardCount
  omega

theorem length_add_missing_ge (num_questions : Nat) (dist : Pct)
    (qs : List Question) :
    num_questions ≤ qs.length + (missing_after_filter num_questions dist qs).total := by
  have h1 := counts_le_length qs
  have h2 := targets_total_ge num_questions dist
  simp only [missing_after_filter, Missing.total] at *
  unfold hardCount at *
  omega

/-- C9 counterexample: the generation path succeeds (the backend response
parses) but supplies 1 question against a shortfall of 2; with an empty
store the caller receives 1 question, not the requested 2 — the result is
truncated, but nothing guarantees it reaches the requested count. -/
theorem exact_count_cex :
    (generate_questions id true (some [mkQ "Hard" "g1"]) [] 6 "B" "T" 2 hardDist
      []).1.length = 1
    ∧ (1 : Nat) ≠ 2 := by
  have h := generate_questions_some_eq id [] 6 "B" "T" 2 hardDist [] [mkQ "Hard" "g1"]
    (by decide)
  have hplan : plan_filtered id [] 6 "B" "T" hardDist 2 [] = [] := by decide
  have htot : total_missing_of id [] 6 "B" "T" hardDist 2 [] = 2 := by decide
  refine ⟨?_, by decide⟩
  rw [h, htot, hplan]
  simp [sort_by_difficulty, List.length_mergeSort]

/-- C9 amended: the result is truncated, never padded, to the requested
count; it has exactly the requested length whenever the successful backend
response supplies at least the computed shortfall (in particular whenever
no generation is needed at all). -/
theorem returns_requested_count (σ : List Row → List Row) (db : DB) (grade : Int)
    (board topic : String) (num_questions : Nat) (dist : Pct)
    (previous_questions : List String) (resp : List Question)
    (hresp : total_missing_of σ db grade board topic dist num_questions
      previous_questions ≤ resp.length) :
    (generate_questions σ true (some resp) db grade board topic num_questions dist
      previous_questions).1.length = num_questions := by
  simp only [total_missing_of] at hresp
  by_cases h0 : (missing_after_filter num_questions dist
      (plan_filtered σ db grade board topic dist num_questions
        previous_questions)).total = 0
  · have h4 := length_add_missing_ge num_questions dist
      (plan_filtered σ db grade board topic dist num_questions previous_questions)
    have hlen : num_questions ≤ (plan_filtered σ db grade board topic dist
        num_questions previous_questions).length := by
      omega
    have heq : generate_questions σ true (some resp) db grade board topic
        num_questions dist previous_questions
        = ((plan_filtered σ db grade board topic dist num_questions
            previous_questions).take num_questions, db) := by
      simp [generate_questions, h0, hlen]
    rw [heq]
    simp only [List.length_take]
    omega
  · have heq := generate_questions_some_eq σ db grade board topic num_questions dist
      previous_questions resp (by simpa [total_missing_of] using h0)
    rw [heq]
    simp only [total_missing_of, sort_by_difficulty, List.length_take,
      List.length_mergeSort, List.length_append]
    have h4 := length_add_missing_ge num_questions dist
      (plan_filtered σ db grade board topic dist num_questions previous_questions)
    omega

/-- C9 witness: shortfall 5, backend supplies 7, exactly 5 are returned. -/
theorem returns_requested_count_witness :
    total_missing_of id [] 6 "B" "T" hardDist 5 [] ≤ genBatch7.length
    ∧ (generate_questions id true (some genBatch7) [] 6 "B" "T" 5 hardDist
        []).1.length = 5 :=
  ⟨by decide, returns_requested_count id [] 6 "B" "T" 5 hardDist [] genBatch7 (by decide)⟩

theorem targetFor_easy (num_questions : Nat) (dist : Pct) :
    targetFor num_questions dist "Easy" = (easyCount num_questions dist : Int) := by
  rw [targetFor, if_pos rfl]

theorem targetFor_medium (num_questions : Nat) (dist : Pct) :
    targetFor num_questions dist "Medium" = (mediumCount num_questions dist : Int) := by
  rw [targetFor, if_neg (by decide), if_pos rfl]

theorem targetFor_hard (num_questions : Nat) (dist : Pct) :
    targetFor num_questions dist "Hard" = hardCount num_questions dist := by
  rw [targetFor, if_neg (by decide), if_neg (by decide)]

theorem missing_get_easy (m : Missing) : m.get "Easy" = m.easy := by
  rw [Missing.get, if_pos rfl]

theorem missing_get_medium (m : Missing) : m.get "Medium" = m.medium := by
  rw [Missing.get, if_neg (by decide), if_pos rfl]

theorem missing_get_hard (m : Missing) : m.get "Hard" = m.hard := by
  rw [Missing.get, if_neg (by decide), if_neg (by decide)]

theorem get_questions_difficulty (σ : List Row → List Row)
    (Hσ : ∀ l : List Row, (σ l).Perm l) (db : DB) (grade : Int)
    (board topic d : String) (lim : Option Nat) (q : Question)
    (hq : q ∈ get_questions σ db grade board topic d lim true) : q.difficulty = d := by
  replace hq : q ∈ (applyLimit lim (σ (db.filter (matchesValid grade board topic d)))).map
      questionOfRow := hq
  rcases List.mem_map.mp hq with ⟨r, hr, rfl⟩
  have hr2 : r ∈ σ (db.filter (matchesValid grade board topic d)) := by
    rcases lim with _ | n
    · exact hr
    · simp only [applyLimit] at hr
      split at hr
      · exact hr
      · exact List.take_subset _ _ hr
  have hr3 : r ∈ db.filter (matchesValid grade board topic d) := (Hσ _).mem_iff.mp hr2
  have hmv := (List.mem_filter.mp hr3).2
  simp only [matchesValid, Bool.and_eq_true, decide_eq_true_eq] at hmv
  exact hmv.1.2

theorem fetch_bucket_shortfall (σ : List Row → List Row)
    (Hσ : ∀ l : List Row, (σ l).Perm l) (db : DB) (grade : Int)
    (board topic d : String) (c : Int)
    (htr : strTruthy (some d) = true)
    (hk : (count_questions db grade board topic (some d) : Int) < c) :
    (fetch_bucket σ db grade board topic d c).1.Perm
      ((db.filter (matchesValid grade board topic d)).map questionOfRow)
    ∧ (fetch_bucket σ db grade board topic d c).2
      = (c - count_questions db grade board topic (some d)).toNat := by
  have hc : 0 < c := lt_of_le_of_lt (Int.natCast_nonneg _) hk
  have hcount : count_questions db grade board topic (some d)
      = (db.filter (matchesValid grade board topic d)).length := by
    rw [count_questions, if_pos htr]
    rfl
  simp only [fetch_bucket]
  rw [if_pos hc, if_neg (not_le.mpr hk)]
  refine ⟨?_, rfl⟩
  show ((applyLimit (some (count_questions db grade board topic (some d)))
      (σ (db.filter (matchesValid grade board topic d)))).map questionOfRow).Perm _
  have happ : applyLimit (some (count_questions db grade board topic (some d)))
      (σ (db.filter (matchesValid grade board topic d)))
      = σ (db.filter (matchesValid grade board topic d)) := by
    simp only [applyLimit]
    split
    · rfl
    · exact List.take_of_length_le (le_of_eq (by rw [(Hσ _).length_eq, hcount]))
  rw [happ]
  exact (Hσ _).map questionOfRow

theorem fetch_bucket_difficulty (σ : List Row → List Row)
    (Hσ : ∀ l : List Row, (σ l).Perm l) (db : DB) (grade : Int)
    (board topic d : String) (c : Int) (q : Question)
    (hq : q ∈ (fetch_bucket σ db grade board topic d c).1) : q.difficulty = d := by
  simp only [fetch_bucket] at hq
  split at hq
  · split at hq
    · exact get_questions_difficulty σ Hσ db grade board topic d _ q hq
    · exact get_questions_difficulty σ Hσ db grade board topic d _ q hq
  · simp at hq

theorem fetch_bucket_filter_self (σ : List Row → List Row)
    (Hσ : ∀ l : List Row, (σ l).Perm l) (db : DB) (grade : Int)
    (board topic d : String) (c : Int) :
    ((fetch_bucket σ db grade board topic d c).1.filter (fun q => q.difficulty == d))
      = (fetch_bucket σ db grade board topic d c).1 :=
  List.filter_eq_self.mpr (fun q hq => by
    rw [fetch_bucket_difficulty σ Hσ db grade board topic d c q hq]
    simp)

theorem fetch_bucket_filter_ne (σ : List Row → List Row)
    (Hσ : ∀ l : List Row, (σ l).Perm l) (db : DB) (grade : Int)
    (board topic dbucket dfilter : String) (c : Int)
    (hne : (dbucket == dfilter) = false) :
    ((fetch_bucket σ db grade board topic dbucket c).1.filter
      (fun q => q.difficulty == dfilter)) = [] := by
  rw [List.filter_eq_nil_iff]
  intro q hq
  rw [fetch_bucket_difficulty σ Hσ db grade board topic dbucket c q hq]
  simp [hne]

/-- C1: when the per-difficulty target `t` exceeds the number `k` of valid
stored questions of difficulty D, the planner with an empty seen-set returns
exactly those `k` questions of D (as a multiset) and reports a shortfall of
`t - k` for D; with an empty seen-set the usable set of `generate_questions`
is exactly the store-sourced set of the plan. -/
theorem plan_shortfall (σ : List Row → List Row)
    (Hσ : ∀ l : List Row, (σ l).Perm l) (db : DB) (grade : Int)
    (board topic : String) (dist : Pct) (num_questions : Nat) (d : String)
    (hd : d = "Easy" ∨ d = "Medium" ∨ d = "Hard")
    (hk : (count_questions db grade board topic (some d) : Int)
      < targetFor num_questions dist d) :
    ((get_partial_questions_and_missing_counts σ db grade board topic dist
        num_questions).1.filter (fun q => q.difficulty == d)).Perm
      ((db.filter (matchesValid grade board topic d)).map questionOfRow)
    ∧ (Missing.get (get_partial_questions_and_missing_counts σ db grade board topic
        dist num_questions).2 d : Int)
      = targetFor num_questions dist d
        - (count_questions db grade board topic (some d) : Int)
    ∧ plan_filtered σ db grade board topic dist num_questions []
      = (get_partial_questions_and_missing_counts σ db grade board topic dist
          num_questions).1 := by
  have hplan : plan_filtered σ db grade board topic dist num_questions []
      = (get_partial_questions_and_missing_counts σ db grade board topic dist
          num_questions).1 := by
    show filter_user_questions []
        (get_partial_questions_and_missing_counts σ db grade board topic dist
          (num_questions * multiplier [])).1
      = (get_partial_questions_and_missing_counts σ db grade board topic dist
          num_questions).1
    rw [show multiplier [] = 1 from rfl, Nat.mul_one]
    rfl
  rcases hd with rfl | rfl | rfl
  · have hk' : (count_questions db grade board topic (some "Easy") : Int)
        < (easyCount num_questions dist : Int) := by rwa [targetFor_easy] at hk
    have hE := fetch_bucket_shortfall σ Hσ db grade board topic "Easy"
      (easyCount num_questions dist : Int) (by decide) hk'
    refine ⟨?_, ?_, hplan⟩
    · show (((fetch_bucket σ db grade board topic "Easy"
            (easyCount num_questions dist : Int)).1
          ++ (fetch_bucket σ db grade board topic "Medium"
            (mediumCount num_questions dist : Int)).1
          ++ (fetch_bucket σ db grade board topic "Hard"
            (hardCount num_questions dist)).1).filter
          (fun q => q.difficulty == "Easy")).Perm
        ((db.filter (matchesValid grade board topic "Easy")).map questionOfRow)
      rw [List.filter_append, List.filter_append,
        fetch_bucket_filter_self σ Hσ db grade board topic "Easy",
        fetch_bucket_filter_ne σ Hσ db grade board topic "Medium" "Easy" _ (by decide),
        fetch_bucket_filter_ne σ Hσ db grade board topic "Hard" "Easy" _ (by decide)]
      simp only [List.append_nil]
      exact hE.1
    · show ((fetch_bucket σ db grade board topic "Easy"
          (easyCount num_questions dist : Int)).2 : Int)
        = targetFor num_questions dist "Easy"
          - (count_questions db grade board topic (some "Easy") : Int)
      rw [hE.2, targetFor_easy, Int.toNat_of_nonneg (by omega)]
  · have hk' : (count_questions db grade board topic (some "Medium") : Int)
        < (mediumCount num_questions dist : Int) := by rwa [targetFor_medium] at hk
    have hM := fetch_bucket_shortfall σ Hσ db grade board topic "Medium"
      (mediumCount num_questions dist : Int) (by decide) hk'
    refine ⟨?_, ?_, hplan⟩
    · show (((fetch_bucket σ db grade board topic "Easy"
            (easyCount num_questions dist : Int)).1
          ++ (fetch_bucket σ db grade board topic "Medium"
            (mediumCount num_questions dist : Int)).1
          ++ (fetch_bucket σ db grade board topic "Hard"
            (hardCount num_questions dist)).1).filter
          (fun q => q.difficulty == "Medium")).Perm
        ((db.filter (matchesValid grade board topic "Medium")).map questionOfRow)
      rw [List.filter_append, List.filter_append,
        fetch_bucket_filter_self σ Hσ db grade board topic "Medium",
        fetch_bucket_filter_ne σ Hσ db grade board topic "Easy" "Medium" _ (by decide),
        fetch_bucket_filter_ne σ Hσ db grade board topic "Hard" "Medium" _ (by decide)]
      simp only [List.append_nil, List.nil_append]
      exact hM.1
    · show ((fetch_bucket σ db grade board topic "Medium"
          (mediumCount num_questions dist : Int)).2 : Int)
        = targetFor num_questions dist "Medium"
          - (count_questions db grade board topic (some "Medium") : Int)
      rw [hM.2, targetFor_medium, Int.toNat_of_nonneg (by omega)]
  · have hk' : (count_questions db grade board topic (some "Hard") : Int)
        < hardCount num_questions dist := by rwa [targetFor_hard] at hk
    have hH := fetch_bucket_shortfall σ Hσ db grade board topic "Hard"
      (hardCount num_questions dist) (by decide) hk'
    refine ⟨?_, ?_, hplan⟩
    · show (((fetch_bucket σ db grade board topic "Easy"
            (easyCount num_questions dist : Int)).1
          ++ (fetch_bucket σ db grade board topic "Medium"
            (mediumCount num_questions dist : Int)).1
          ++ (fetch_bucket σ db grade board topic "Hard"
            (hardCount num_questions dist)).1).filter
          (fun q => q.difficulty == "Hard")).Perm
        ((db.filter (matchesValid grade board topic "Hard")).map questionOfRow)
      rw [List.filter_append, List.filter_append,
        fetch_bucket_filter_self σ Hσ db grade board topic "Hard",
        fetch_bucket_filter_ne σ Hσ db grade board topic "Easy" "Hard" _ (by decide),
        fetch_bucket_filter_ne σ Hσ db grade board topic "Medium" "Hard" _ (by decide)]
      simp only [List.nil_append]
      exact hH.1
    · show ((fetch_bucket σ db grade board topic "Hard"
          (hardCount num_questions dist)).2 : Int)
        = targetFor num_questions dist "Hard"
          - (count_questions db grade board topic (some "Hard") : Int)
      rw [hH.2, targetFor_hard, Int.toNat_of_nonneg (by omega)]

/-- C1 witness: the store with 5 Easy, 3 Medium, 0 Hard valid questions and
the request for 10 at Easy 50 / Medium 30 / Hard 20: targets are 5, 3, 2,
the plan yields 8 usable questions and shortfall Easy 0, Medium 0, Hard 2. -/
theorem plan_shortfall_witness :
    ((count_questions sampleDb 6 "B" "T" (some "Hard") : Int)
      < targetFor 10 mixDist "Hard")
    ∧ (get_partial_questions_and_missing_counts id sampleDb 6 "B" "T" mixDist
        10).1.length = 8
    ∧ (get_partial_questions_and_missing_counts id sampleDb 6 "B" "T" mixDist 10).2
        = { easy := 0, medium := 0, hard := 2 }
    ∧ (((get_partial_questions_and_missing_counts id sampleDb 6 "B" "T" mixDist
          10).1.filter (fun q => q.difficulty == "Hard")).Perm
        ((sampleDb.filter (matchesValid 6 "B" "T" "Hard")).map questionOfRow)
      ∧ (Missing.get (get_partial_questions_and_missing_counts id sampleDb 6 "B" "T"
          mixDist 10).2 "Hard" : Int)
        = targetFor 10 mixDist "Hard"
          - (count_questions sampleDb 6 "B" "T" (some "Hard") : Int)
      ∧ plan_filtered id sampleDb 6 "B" "T" mixDist 10 []
        = (get_partial_questions_and_missing_counts id sampleDb 6 "B" "T" mixDist
            10).1) :=
  ⟨by decide, by decide, by decide,
   plan_shortfall id (fun l => List.Perm.refl l) sampleDb 6 "B" "T" mixDist 10 "Hard"
     (Or.inr (Or.inr rfl)) (by decide)⟩
